import Mathlib

/-!
# Icon resolution of `OCC::Theme` (src/libsync/theme.cpp)

A shallow embedding of `Theme::syncStateIcon`, `Theme::systrayIconFlavor`,
`Theme::setSystrayUseMonoIcons` and `Theme::themeIcon`.

The Qt services the functions call are the fields of `Env`, and the string
function `QString::arg`, with which the resource paths are built, is modelled
after its implementation in qstring.cpp; the member
variables `_mono` and `_iconCache` are the fields of `Theme`.  `themeIcon`
is `const` in C++ but writes the `mutable` cache, so the embedding passes the
state explicitly and returns the new state with the icon.  Besides the icon it
returns the list of queries it made to the system icon theme and to the
resource file system, in the order the C++ code makes them.
-/

namespace OCC

/-! ## Data model -/

/-- The enumeration `SyncResult::Status`.  The ten enumerators are the ones
`theme.cpp` names; `unnamed raw` stands for a value of the underlying integer
type that equals none of them (it reaches the `default:` label of a switch). -/
inductive SyncResult.Status where
  | Undefined
  | NotYetStarted
  | SyncPrepare
  | SyncRunning
  | SyncAbortRequested
  | Success
  | Problem
  | Error
  | SetupError
  | Paused
  | unnamed (raw : Int)
  deriving DecidableEq, Repr

/-- A non-null `QPixmap` constructed from a resource file.  `ubuntuMono`
records that the pixmap went through the `DESKTOP_SESSION == "ubuntu"` repaint
(white mask painted with `#dfdbd2`).  A null `QPixmap`, which is what the
constructor leaves when the file does not decode, is `none` of
`Option QPixmap`. -/
structure QPixmap where
  fileName : String
  ubuntuMono : Bool
  deriving DecidableEq, Repr

/-- One entry of the pixmap engine of a `QIcon`: `pixmap` is what
`QIcon::addPixmap` adds, `file` is what `QIcon::addFile` adds. -/
inductive IconLayer where
  | pixmap (px : QPixmap)
  | file (fileName : String)
  deriving DecidableEq, Repr

/-- A `QIcon` as a value: the system-theme icon it was taken from (if any),
the layers added to it, and the `isMask` (template) tag. -/
structure QIcon where
  themeName : Option String
  layers : List IconLayer
  isMask : Bool
  deriving DecidableEq, Repr

/-- The default-constructed `QIcon()`. -/
def QIcon.null : QIcon := ⟨none, [], false⟩

/-- The test `QIcon::isNull()`: the icon has neither a theme engine nor a layer. -/
def QIcon.isNull (icon : QIcon) : Bool :=
  icon.themeName.isNone && icon.layers.isEmpty

/-- The icon `QIcon::fromTheme(name)` for a name the system theme has. -/
def QIcon.fromTheme (name : String) : QIcon := ⟨some name, [], false⟩

/-- The call `QIcon::addPixmap(px)`: a null pixmap is not added. -/
def QIcon.addPixmap (icon : QIcon) : Option QPixmap → QIcon
  | none => icon
  | some px => { icon with layers := icon.layers ++ [IconLayer.pixmap px] }

/-- The call `QIcon::addFile(fileName)`: the file is recorded and loaded on
demand. -/
def QIcon.addFile (icon : QIcon) (fileName : String) : QIcon :=
  { icon with layers := icon.layers ++ [IconLayer.file fileName] }

/-- The call `QIcon::setIsMask(isMask)`. -/
def QIcon.setIsMask (icon : QIcon) (isMask : Bool) : QIcon :=
  { icon with isMask := isMask }

/-- What `themeIcon` reads from outside the `Theme` object. -/
structure Env where
  /-- Whether `Q_OS_MAC` is defined. -/
  isMac : Bool
  /-- The value of `Utility::hasDarkSystray()`. -/
  hasDarkSystray : Bool
  /-- The value of `QIcon::hasThemeIcon(name)`. -/
  hasThemeIcon : String → Bool
  /-- The value of `QFile::exists(path)` on the Qt resource system. -/
  fileExists : String → Bool
  /-- The value of `qgetenv("DESKTOP_SESSION")`. -/
  desktopSession : String
  /-- Whether `QPixmap(path)` decodes the file to a non-null pixmap. -/
  pixmapLoads : String → Bool
  /-- The text of a number under the default `QLocale`, which
  `QString::arg(int)` writes at a `%Ln` place marker. -/
  localeNumber : Nat → String

/-- A query `themeIcon` makes to the system icon theme or to the resources. -/
inductive Probe where
  | hasThemeIcon (name : String)
  | fromTheme (name : String)
  | fileExists (path : String)
  deriving DecidableEq, Repr

/-- The type `QHash<QString, QIcon>` of `_iconCache`, as a finite map read
pointwise: `none` is a key that was never inserted. -/
abbrev IconCache := String → Option QIcon

/-- The member variables of `Theme` that `themeIcon` uses. -/
structure Theme where
  _mono : Bool
  _iconCache : IconCache

/-- The write `_iconCache[key] = icon`. -/
def IconCache.set (cache : IconCache) (key : String) (icon : QIcon) : IconCache :=
  fun k => if k = key then some icon else cache k

/-- The read `_iconCache[key]`: a missing key yields a default-constructed icon. -/
def IconCache.value (cache : IconCache) (key : String) : QIcon :=
  (cache key).getD QIcon.null

/-- The result of one `themeIcon` call: the returned icon, the `Theme` after
the call, and the queries made. -/
structure Resolved where
  icon : QIcon
  theme : Theme
  probes : List Probe

/-! ## Status mapper -/

/-- The `switch` of `Theme::syncStateIcon`: the value of `statusIcon` at the
`themeIcon` call. -/
def statusIcon : SyncResult.Status → String
  | .Undefined => "state-information"
  | .NotYetStarted => "state-sync"
  | .SyncRunning => "state-sync"
  | .SyncAbortRequested => "state-pause"
  | .Paused => "state-pause"
  | .SyncPrepare => "state-ok"
  | .Success => "state-ok"
  | .Problem => "state-information"
  | .Error => "state-error"
  | .SetupError => "state-error"
  | .unnamed _ => "state-error"

/-! ## Flavor -/

/-- The function `Theme::systrayIconFlavor(mono, sysTrayMenuVisible)`. -/
def systrayIconFlavor (env : Env) (mono sysTrayMenuVisible : Bool) : String :=
  if mono then
    let flavor := if env.hasDarkSystray then "white" else "black"
    if env.isMac && sysTrayMenuVisible then "white" else flavor
  else
    "colored"

/-- The call `Theme::setSystrayUseMonoIcons(mono)` (the signal it emits has no
receiver inside `Theme`). -/
def setSystrayUseMonoIcons (t : Theme) (mono : Bool) : Theme :=
  { t with _mono := mono }

/-! ## The function `QString::arg` -/

/-- The value of `QChar::digitValue()`: the value of an ASCII digit, `none`
where Qt returns -1.  Digits outside ASCII are not modelled. -/
def digitValue (c : Char) : Option Nat :=
  if c.isDigit then some (c.toNat - '0'.toNat) else none

/-- One piece of a string as `QString::arg` reads it: a plain character, or a
place marker `%n` / `%Ln` with its number, its `L` flag and its digits. -/
inductive ArgToken where
  | text (c : Char)
  | escape (number : Nat) (locale : Bool) (digits : List Char)
  deriving DecidableEq, Repr

/-- Where the scan of `findArgEscapes` stands inside a possible place marker:
outside one, after `%`, after `%L`, or after the first digit. -/
inductive ArgPending where
  | idle
  | percent
  | percentL
  | digit (locale : Bool) (c1 : Char) (d1 : Nat)
  deriving DecidableEq, Repr

/-- The characters read so far of a marker that the end of the string cuts off. -/
def ArgPending.flush : ArgPending → List ArgToken
  | .idle => []
  | .percent => [ArgToken.text '%']
  | .percentL => [ArgToken.text '%', ArgToken.text 'L']
  | .digit locale c1 d1 => [ArgToken.escape d1 locale [c1]]

/-- The scan of `findArgEscapes` / `replaceArgEscapes` (qstring.cpp): `%`, an
optional `L`, then one or two digits form a place marker; a `%` not followed by
a digit is plain text and the scan goes on at the character after it. -/
def argScan : ArgPending → List Char → List ArgToken
  | p, [] => p.flush
  | .idle, c :: rest =>
    if c = '%' then argScan .percent rest else ArgToken.text c :: argScan .idle rest
  | .percent, c :: rest =>
    if c = 'L' then argScan .percentL rest
    else match digitValue c with
      | some d => argScan (.digit false c d) rest
      | none =>
        ArgToken.text '%' ::
          (if c = '%' then argScan .percent rest else ArgToken.text c :: argScan .idle rest)
  | .percentL, c :: rest =>
    match digitValue c with
    | some d => argScan (.digit true c d) rest
    | none =>
      ArgToken.text '%' :: ArgToken.text 'L' ::
        (if c = '%' then argScan .percent rest else ArgToken.text c :: argScan .idle rest)
  | .digit locale c1 d1, c :: rest =>
    match digitValue c with
    | some d2 => ArgToken.escape (10 * d1 + d2) locale [c1, c] :: argScan .idle rest
    | none =>
      ArgToken.escape d1 locale [c1] ::
        (if c = '%' then argScan .percent rest else ArgToken.text c :: argScan .idle rest)

/-- The pieces of a whole string. -/
def argTokens (l : List Char) : List ArgToken := argScan .idle l

/-- The field `min_escape` of `findArgEscapes`: the lowest marker number of the
string, `none` when it has no marker. -/
def minEscape : List ArgToken → Option Nat
  | [] => none
  | .text _ :: rest => minEscape rest
  | .escape n _ _ :: rest =>
    match minEscape rest with
    | none => some n
    | some m => some (min n m)

/-- What `replaceArgEscapes` writes for one piece: the argument for a marker
with the lowest number (the locale form of the argument for `%Ln`), the piece
itself otherwise. -/
def replaceToken (m : Nat) (arg larg : List Char) : ArgToken → List Char
  | .text c => [c]
  | .escape n locale digits =>
    if n = m then (if locale then larg else arg)
    else '%' :: (if locale then 'L' :: digits else digits)

/-- The loop of `replaceArgEscapes` over the pieces. -/
def fillTokens (m : Nat) (arg larg : List Char) : List ArgToken → List Char
  | [] => []
  | tok :: rest => replaceToken m arg larg tok ++ fillTokens m arg larg rest

/-- The function `QString::arg(a)` with field width 0: every occurrence of the
lowest-numbered place marker is replaced, by `a` at `%n` and by `larg` at `%Ln`
(for a string argument the two are the same); a string without a marker is
returned as it is. -/
def QString.arg (s a larg : String) : String :=
  match minEscape (argTokens s.data) with
  | none => s
  | some m => ⟨fillTokens m a.data larg.data (argTokens s.data)⟩

/-- Whether `QString::arg` finds a place marker in the string. -/
def hasPlaceMarker (s : String) : Bool :=
  (minEscape (argTokens s.data)).isSome


/-- A character that ends any marker being read and starts none: not `%`, not
`L`, not a digit. -/
def neutralChar (c : Char) : Bool :=
  c != '%' && c != 'L' && (digitValue c).isNone

/-- The characters a piece stands for. -/
def ArgToken.chars : ArgToken → List Char
  | .text c => [c]
  | .escape _ locale digits => '%' :: (if locale then 'L' :: digits else digits)

/-- The characters a list of pieces stands for. -/
def renderTokens : List ArgToken → List Char
  | [] => []
  | tok :: rest => tok.chars ++ renderTokens rest

/-- The characters already read of a marker in progress. -/
def ArgPending.chars : ArgPending → List Char
  | .idle => []
  | .percent => ['%']
  | .percentL => ['%', 'L']
  | .digit locale c1 _ => '%' :: (if locale then ['L', c1] else [c1])

/-- No marker of the list has a number at or below `n`. -/
def escapesAbove (n : Nat) : List ArgToken → Bool
  | [] => true
  | .text _ :: rest => escapesAbove n rest
  | .escape m _ _ :: rest => decide (n < m) && escapesAbove n rest

/-! ## Icon resolution -/

/-- The list `sizes` of `themeIcon`. -/
def sizes : List Nat := [16, 22, 32, 48, 64, 128, 256, 512, 1024]

/-- The string
`QStringLiteral(":/client/theme/%1/%2-%3.png").arg(flavor).arg(name).arg(size)`:
three chained `QString::arg` calls, the last with an `int`. -/
def themedPixmapName (env : Env) (flavor name : String) (size : Nat) : String :=
  QString.arg
    (QString.arg (QString.arg ":/client/theme/%1/%2-%3.png" flavor flavor) name name)
    (toString size) (env.localeNumber size)

/-- The string `QStringLiteral(":/client/resources/%1-%2.png").arg(name).arg(size)`:
two chained `QString::arg` calls, the last with an `int`. -/
def flatPixmapName (env : Env) (name : String) (size : Nat) : String :=
  QString.arg (QString.arg ":/client/resources/%1-%2.png" name name)
    (toString size) (env.localeNumber size)

/-- The first three statements of `themeIcon`: the flavor. -/
def themeIconFlavor (env : Env) (mono sysTray sysTrayMenuVisible : Bool) : String :=
  if sysTray then systrayIconFlavor env mono sysTrayMenuVisible else "colored"

/-- The statement `QString key = name + QLatin1Char(',') + flavor`. -/
def themeIconKey (name flavor : String) : String :=
  name ++ "," ++ flavor

/-- The constructor `QPixmap px(pixmapName)` followed by the ubuntu-mono repaint
when `DESKTOP_SESSION` is `ubuntu`; `none` is the null pixmap of a file that
does not decode (the repaint leaves a null pixmap null). -/
def loadPixmap (env : Env) (pixmapName : String) : Option QPixmap :=
  if env.pixmapLoads pixmapName then
    some { fileName := pixmapName, ubuntuMono := (env.desktopSession == "ubuntu") }
  else
    none

/-- The body of the first `foreach (int size, sizes)` loop, on the pair of
`cached` and the queries made so far. -/
def themedStep (env : Env) (flavor name : String) (acc : QIcon × List Probe) (size : Nat) :
    QIcon × List Probe :=
  let pixmapName := themedPixmapName env flavor name size
  if env.fileExists pixmapName then
    (acc.1.addPixmap (loadPixmap env pixmapName), acc.2 ++ [Probe.fileExists pixmapName])
  else
    (acc.1, acc.2 ++ [Probe.fileExists pixmapName])

/-- The body of the second `foreach (int size, sizes)` loop. -/
def flatStep (env : Env) (name : String) (acc : QIcon × List Probe) (size : Nat) :
    QIcon × List Probe :=
  let pixmapName := flatPixmapName env name size
  if env.fileExists pixmapName then
    (acc.1.addFile pixmapName, acc.2 ++ [Probe.fileExists pixmapName])
  else
    (acc.1, acc.2 ++ [Probe.fileExists pixmapName])

/-- The part of `themeIcon` after the system-theme test: the two loops over
the bundled resources, run on `cached` and the queries made so far. -/
def bundledLookup (env : Env) (flavor name : String) (acc : QIcon × List Probe) :
    QIcon × List Probe :=
  let themed := sizes.foldl (themedStep env flavor name) acc
  if themed.1.isNull then
    sizes.foldl (flatStep env name) themed
  else
    themed

/-- The tail of `themeIcon` after the `if (cached.isNull())` block: under
`Q_OS_MAC` the `setIsMask` call on the cache entry, then `return cached`. -/
def finish (env : Env) (t : Theme) (key : String) (sysTray sysTrayMenuVisible : Bool)
    (acc : QIcon × List Probe) : Resolved :=
  let cached :=
    if env.isMac then acc.1.setIsMask (t._mono && sysTray && !sysTrayMenuVisible) else acc.1
  { icon := cached, theme := { t with _iconCache := t._iconCache.set key cached }, probes := acc.2 }

/-- The function `Theme::themeIcon(name, sysTray, sysTrayMenuVisible)`.
`cached` is a reference into `_iconCache`, so what is done to it is written to
the cache entry under `key`. -/
def themeIcon (env : Env) (t : Theme) (name : String) (sysTray sysTrayMenuVisible : Bool) :
    Resolved :=
  let flavor := themeIconFlavor env t._mono sysTray sysTrayMenuVisible
  let key := themeIconKey name flavor
  let cached := t._iconCache.value key
  if cached.isNull then
    if env.hasThemeIcon name then
      let icon := QIcon.fromTheme name
      { icon := icon
        theme := { t with _iconCache := t._iconCache.set key icon }
        probes := [Probe.hasThemeIcon name, Probe.fromTheme name] }
    else
      finish env t key sysTray sysTrayMenuVisible
        (bundledLookup env flavor name (cached, [Probe.hasThemeIcon name]))
  else
    finish env t key sysTray sysTrayMenuVisible (cached, [])

/-- The function `Theme::syncStateIcon(status, sysTray, sysTrayMenuVisible)`. -/
def syncStateIcon (env : Env) (t : Theme) (status : SyncResult.Status)
    (sysTray sysTrayMenuVisible : Bool) : Resolved :=
  themeIcon env t (statusIcon status) sysTray sysTrayMenuVisible

/-! ## Reference definitions and concrete inputs -/

/-- The themed asset path of the specification, `theme/<flavor>/<name>-<size>`,
under the resource root `:/client/` and with the extension `.png`. -/
def specThemedPath (flavor name : String) (size : Nat) : String :=
  ":/client/theme/" ++ flavor ++ "/" ++ name ++ "-" ++ toString size ++ ".png"

/-- The flat asset path of the specification, `resources/<name>-<size>`, under
the resource root `:/client/` and with the extension `.png`. -/
def specFlatPath (name : String) (size : Nat) : String :=
  ":/client/resources/" ++ name ++ "-" ++ toString size ++ ".png"

/-- Reference definition of the layers of a freshly assembled icon, in the
words of the specification: the themed assets of the sizes that exist if there
is one, otherwise the flat assets of the sizes that exist. -/
def specLayers (env : Env) (flavor name : String) : List IconLayer :=
  let themed := sizes.filter (fun size => env.fileExists (specThemedPath flavor name size))
  let flat := sizes.filter (fun size => env.fileExists (specFlatPath name size))
  if themed ≠ [] then
    themed.map (fun size =>
      IconLayer.pixmap ⟨specThemedPath flavor name size, env.desktopSession == "ubuntu"⟩)
  else
    flat.map (fun size => IconLayer.file (specFlatPath name size))

/-- The layers the two loops of `themeIcon` add to a null icon, in closed form:
the pixmaps of the themed paths that exist and decode, or, when there is none,
the flat paths that exist. -/
def builtLayers (env : Env) (flavor name : String) : List IconLayer :=
  let themed :=
    (sizes.filter (fun size => env.fileExists (themedPixmapName env flavor name size))).filterMap
      (fun size => (loadPixmap env (themedPixmapName env flavor name size)).map IconLayer.pixmap)
  if themed = [] then
    (sizes.filter (fun size => env.fileExists (flatPixmapName env name size))).map
      (fun size => IconLayer.file (flatPixmapName env name size))
  else
    themed

/-- A `Theme` as its constructor leaves it: `_mono` false, nothing cached. -/
def freshTheme : Theme := ⟨false, fun _ => none⟩

/-- An environment off macOS with a light tray, no system icon theme and no
bundled asset at all. -/
def bareEnv : Env := ⟨false, false, fun _ => false, fun _ => false, "",
    fun _ => true, fun n => toString n⟩

/-- An environment off macOS with a dark tray, no system icon theme, and the
themed assets of size 16 for `state-sync` in the flavors `colored` and `white`. -/
def twoFlavorEnv : Env :=
  ⟨false, true, fun _ => false,
    fun path => path == ":/client/theme/colored/state-sync-16.png"
      || path == ":/client/theme/white/state-sync-16.png", "",
    fun _ => true, fun n => toString n⟩

/-- A macOS environment with a dark tray whose system icon theme has every
name and which bundles no asset. -/
def macThemeEnv : Env := ⟨true, true, fun _ => true, fun _ => false, "",
    fun _ => true, fun n => toString n⟩

/-- A macOS environment with a dark tray, no system icon theme and no bundled
asset at all. -/
def macBareEnv : Env := ⟨true, true, fun _ => false, fun _ => false, "",
    fun _ => true, fun n => toString n⟩

/-- An environment off macOS whose system icon theme has every name and whose
resources hold every path. -/
def fullEnv : Env := ⟨false, false, fun _ => true, fun _ => true, "",
    fun _ => true, fun n => toString n⟩

/-- An environment off macOS with no system icon theme, whose only bundled
assets are the flat images of `state-sync` in the sizes 22 and 48. -/
def flatEnv : Env :=
  ⟨false, false, fun _ => false,
    fun path => path == ":/client/resources/state-sync-22.png"
      || path == ":/client/resources/state-sync-48.png", "",
    fun _ => true, fun n => toString n⟩

/-- An environment off macOS with no system icon theme, whose only bundled
asset is the themed `colored` image of the name `a%1` in size 16. -/
def markerEnv : Env :=
  ⟨false, false, fun _ => false,
    fun path => path == ":/client/theme/colored/a%1-16.png", "", fun _ => true,
    fun n => toString n⟩

/-- An environment off macOS with no system icon theme, whose only bundled
asset is the themed `colored` file of `app` in size 16, which does not decode. -/
def undecodableEnv : Env :=
  ⟨false, false, fun _ => false,
    fun path => path == ":/client/theme/colored/app-16.png", "", fun _ => false,
    fun n => toString n⟩

/-- An environment off macOS with no system icon theme, whose only bundled
assets are the themed `colored` images of `app` in the sizes 16 and 64 and the
flat image of `app` in size 32. -/
def partialEnv : Env :=
  ⟨false, false, fun _ => false,
    fun path => path == ":/client/theme/colored/app-16.png"
      || path == ":/client/theme/colored/app-64.png"
      || path == ":/client/resources/app-32.png", "",
    fun _ => true, fun n => toString n⟩

/-- A `Theme` with the mono flag set and nothing cached. -/
def monoTheme : Theme := ⟨true, fun _ => none⟩

/-- The `Theme` after `n` successive calls `themeIcon(name, sysTray, sysTrayMenuVisible)`
starting from `t`. -/
def repeatThemeIcon (env : Env) (name : String) (sysTray sysTrayMenuVisible : Bool) :
    Nat → Theme → Theme
  | 0, t => t
  | n + 1, t =>
    (themeIcon env (repeatThemeIcon env name sysTray sysTrayMenuVisible n t)
      name sysTray sysTrayMenuVisible).theme

/-- The `Theme` of the mono-toggle scenario: from `t`, one call
`themeIcon("state-sync", true, sysTrayMenuVisible)`, then
`setSystrayUseMonoIcons(true)`, then `n` more calls with the same arguments. -/
def afterToggle (env : Env) (t : Theme) (sysTrayMenuVisible : Bool) (n : Nat) : Theme :=
  repeatThemeIcon env "state-sync" true sysTrayMenuVisible n
    (setSystrayUseMonoIcons (themeIcon env t "state-sync" true sysTrayMenuVisible).theme true)

/-- The same scenario without the first call: from `t`,
`setSystrayUseMonoIcons(true)`, then `n` calls
`themeIcon("state-sync", true, sysTrayMenuVisible)`. -/
def withoutFirstCall (env : Env) (t : Theme) (sysTrayMenuVisible : Bool) (n : Nat) : Theme :=
  repeatThemeIcon env "state-sync" true sysTrayMenuVisible n (setSystrayUseMonoIcons t true)

/-! ## Lemmas on the two loops -/

theorem foldl_themedStep (env : Env) (flavor name : String) (l : List Nat)
    (acc : QIcon × List Probe) :
    l.foldl (themedStep env flavor name) acc =
      (⟨acc.1.themeName,
        acc.1.layers ++
          (l.filter (fun size => env.fileExists (themedPixmapName env flavor name size))).filterMap
            (fun size =>
              (loadPixmap env (themedPixmapName env flavor name size)).map IconLayer.pixmap),
        acc.1.isMask⟩,
       acc.2 ++ l.map (fun size => Probe.fileExists (themedPixmapName env flavor name size))) := by
  induction l generalizing acc with
  | nil => simp
  | cons size rest ih =>
    rw [List.foldl_cons, ih]
    by_cases h : env.fileExists (themedPixmapName env flavor name size) = true
    · cases hl : loadPixmap env (themedPixmapName env flavor name size) <;>
        simp [themedStep, h, hl, QIcon.addPixmap]
    · simp [themedStep, h]

theorem foldl_flatStep (env : Env) (name : String) (l : List Nat) (acc : QIcon × List Probe) :
    l.foldl (flatStep env name) acc =
      (⟨acc.1.themeName,
        acc.1.layers ++ (l.filter (fun size => env.fileExists (flatPixmapName env name size))).map
          (fun size => IconLayer.file (flatPixmapName env name size)),
        acc.1.isMask⟩,
       acc.2 ++ l.map (fun size => Probe.fileExists (flatPixmapName env name size))) := by
  induction l generalizing acc with
  | nil => simp
  | cons size rest ih =>
    rw [List.foldl_cons, ih]
    by_cases h : env.fileExists (flatPixmapName env name size) = true
    · simp [flatStep, h, QIcon.addFile]
    · simp [flatStep, h]

theorem isNull_iff (icon : QIcon) :
    icon.isNull = true ↔ icon.themeName = none ∧ icon.layers = [] := by
  cases icon with
  | mk themeName layers isMask =>
    cases themeName <;> cases layers <;> simp [QIcon.isNull]

/-- The layers, theme engine and tag of the icon `bundledLookup` leaves in
`cached` when it starts from a null icon. -/
theorem bundledLookup_icon (env : Env) (flavor name : String) (acc : QIcon × List Probe)
    (hnull : acc.1.isNull = true) :
    (bundledLookup env flavor name acc).1 =
      ⟨none, builtLayers env flavor name, acc.1.isMask⟩ := by
  obtain ⟨hth, hly⟩ := (isNull_iff acc.1).1 hnull
  unfold bundledLookup builtLayers
  rw [foldl_themedStep]
  by_cases hthemed :
      (sizes.filter (fun size => env.fileExists (themedPixmapName env flavor name size))).filterMap
        (fun size =>
          (loadPixmap env (themedPixmapName env flavor name size)).map IconLayer.pixmap) = []
  · rw [if_pos hthemed]
    have hn : (QIcon.mk acc.1.themeName
        (acc.1.layers ++
          (sizes.filter (fun size =>
            env.fileExists (themedPixmapName env flavor name size))).filterMap
            (fun size =>
              (loadPixmap env (themedPixmapName env flavor name size)).map IconLayer.pixmap))
        acc.1.isMask).isNull = true := by
      rw [hthemed, hth, hly]
      rfl
    simp only [hn, if_true]
    rw [foldl_flatStep]
    simp [hthemed, hth, hly]
  · rw [if_neg hthemed]
    have hn : (QIcon.mk acc.1.themeName
        (acc.1.layers ++
          (sizes.filter (fun size =>
            env.fileExists (themedPixmapName env flavor name size))).filterMap
            (fun size =>
              (loadPixmap env (themedPixmapName env flavor name size)).map IconLayer.pixmap))
        acc.1.isMask).isNull = false := by
      rw [hth, hly]
      simp only [QIcon.isNull, List.nil_append, Option.isNone_none, Bool.true_and,
        List.isEmpty_eq_true]
      simpa using hthemed
    simp only [hn]
    simp [hth, hly]

/-- Every query `bundledLookup` adds is a `QFile::exists` on a themed path of
the flavor or on a flat path of the name. -/
theorem bundledLookup_probes (env : Env) (flavor name : String) (acc : QIcon × List Probe) :
    ∀ p ∈ (bundledLookup env flavor name acc).2, p ∈ acc.2 ∨
      ∃ size ∈ sizes, p = Probe.fileExists (themedPixmapName env flavor name size) ∨
        p = Probe.fileExists (flatPixmapName env name size) := by
  intro p hp
  unfold bundledLookup at hp
  simp only [foldl_themedStep, foldl_flatStep] at hp
  split at hp
  · simp only [List.mem_append, List.mem_map] at hp
    rcases hp with (hp | ⟨size, hs, rfl⟩) | ⟨size, hs, rfl⟩
    · exact Or.inl hp
    · exact Or.inr ⟨size, hs, Or.inl rfl⟩
    · exact Or.inr ⟨size, hs, Or.inr rfl⟩
  · simp only [List.mem_append, List.mem_map] at hp
    rcases hp with hp | ⟨size, hs, rfl⟩
    · exact Or.inl hp
    · exact Or.inr ⟨size, hs, Or.inl rfl⟩

/-- The first query of `bundledLookup` is the first one it was handed. -/
theorem bundledLookup_probes_head (env : Env) (flavor name : String) (acc : QIcon × List Probe)
    (p : Probe) (hp : acc.2.head? = some p) :
    (bundledLookup env flavor name acc).2.head? = some p := by
  obtain ⟨icon, probes⟩ := acc
  cases probes with
  | nil => simp at hp
  | cons q rest =>
    simp only [List.head?_cons, Option.some.injEq] at hp
    subst hp
    unfold bundledLookup
    simp only [foldl_themedStep, foldl_flatStep]
    split <;> simp

/-! ## Lemmas on `QString::arg` -/

theorem neutralChar_spec (c : Char) (h : neutralChar c = true) :
    c ≠ '%' ∧ c ≠ 'L' ∧ digitValue c = none := by
  simp only [neutralChar, Bool.and_eq_true, bne_iff_ne, ne_eq, Option.isNone_iff_eq_none] at h
  exact ⟨h.1.1, h.1.2, h.2⟩

theorem argScan_neutral (c : Char) (hc : neutralChar c = true) (rest : List Char) :
    ∀ (l : List Char) (p : ArgPending),
      argScan p (l ++ c :: rest) = argScan p l ++ ArgToken.text c :: argScan .idle rest := by
  obtain ⟨h1, h2, h3⟩ := neutralChar_spec c hc
  have hpc : digitValue '%' = none := by decide
  intro l
  induction l with
  | nil =>
    intro p
    cases p <;> simp [argScan, ArgPending.flush, h1, h2, h3]
  | cons x xs ih =>
    intro p
    by_cases hx : x = '%'
    · subst hx
      cases p <;> simp [argScan, hpc, ih]
    · cases p with
      | idle => simp [argScan, hx, ih]
      | percent =>
        by_cases hL : x = 'L'
        · simp [argScan, hL, ih]
        · cases hd : digitValue x <;> simp [argScan, hL, hd, hx, ih]
      | percentL =>
        cases hd : digitValue x <;> simp [argScan, hd, hx, ih]
      | digit locale c1 d1 =>
        cases hd : digitValue x <;> simp [argScan, hd, hx, ih]

theorem renderTokens_append (a b : List ArgToken) :
    renderTokens (a ++ b) = renderTokens a ++ renderTokens b := by
  induction a with
  | nil => rfl
  | cons tok rest ih => simp [renderTokens, ih]

theorem renderTokens_argScan :
    ∀ (l : List Char) (p : ArgPending), renderTokens (argScan p l) = p.chars ++ l := by
  have hpc : digitValue '%' = none := by decide
  intro l
  induction l with
  | nil =>
    intro p
    cases p with
    | idle => rfl
    | percent => rfl
    | percentL => rfl
    | digit locale c1 d1 => cases locale <;> rfl
  | cons x xs ih =>
    intro p
    by_cases hx : x = '%'
    · subst hx
      cases p with
      | idle => simp [argScan, ih, renderTokens, ArgToken.chars, ArgPending.chars]
      | percent => simp [argScan, hpc, ih, renderTokens, ArgToken.chars, ArgPending.chars]
      | percentL => simp [argScan, hpc, ih, renderTokens, ArgToken.chars, ArgPending.chars]
      | digit locale c1 d1 =>
        cases locale <;>
          simp [argScan, hpc, ih, renderTokens, ArgToken.chars, ArgPending.chars]
    · cases p with
      | idle => simp [argScan, hx, ih, renderTokens, ArgToken.chars, ArgPending.chars]
      | percent =>
        by_cases hL : x = 'L'
        · simp [argScan, hL, ih, renderTokens, ArgToken.chars, ArgPending.chars]
        · cases hd : digitValue x <;>
            simp [argScan, hL, hd, hx, ih, renderTokens, ArgToken.chars, ArgPending.chars]
      | percentL =>
        cases hd : digitValue x <;>
          simp [argScan, hd, hx, ih, renderTokens, ArgToken.chars, ArgPending.chars]
      | digit locale c1 d1 =>
        cases hd : digitValue x <;> cases locale <;>
          simp [argScan, hd, hx, ih, renderTokens, ArgToken.chars, ArgPending.chars]

theorem minEscape_append_of_none (a b : List ArgToken) (h : minEscape a = none) :
    minEscape (a ++ b) = minEscape b := by
  induction a with
  | nil => rfl
  | cons tok rest ih =>
    cases tok with
    | text c => exact ih h
    | escape n locale digits =>
      simp only [minEscape] at h
      cases hr : minEscape rest <;> simp [hr] at h

theorem fillTokens_append (m : Nat) (arg larg : List Char) (a b : List ArgToken) :
    fillTokens m arg larg (a ++ b) = fillTokens m arg larg a ++ fillTokens m arg larg b := by
  induction a with
  | nil => rfl
  | cons tok rest ih => simp [fillTokens, ih]

theorem fillTokens_of_none (m : Nat) (arg larg : List Char) (a : List ArgToken)
    (h : minEscape a = none) : fillTokens m arg larg a = renderTokens a := by
  induction a with
  | nil => rfl
  | cons tok rest ih =>
    cases tok with
    | text c => simp [fillTokens, renderTokens, replaceToken, ArgToken.chars, ih h]
    | escape n locale digits =>
      simp only [minEscape] at h
      cases hr : minEscape rest <;> simp [hr] at h

theorem fillTokens_of_above (m : Nat) (arg larg : List Char) (a : List ArgToken)
    (h : escapesAbove m a = true) : fillTokens m arg larg a = renderTokens a := by
  induction a with
  | nil => rfl
  | cons tok rest ih =>
    cases tok with
    | text c => simp [fillTokens, renderTokens, replaceToken, ArgToken.chars, ih h]
    | escape n locale digits =>
      simp only [escapesAbove, Bool.and_eq_true, decide_eq_true_eq] at h
      have hne : ¬ n = m := by omega
      simp [fillTokens, renderTokens, replaceToken, ArgToken.chars, ih h.2, hne]

theorem minEscape_of_above (m : Nat) (a : List ArgToken) (h : escapesAbove m a = true) :
    minEscape a = none ∨ ∃ k, minEscape a = some k ∧ m < k := by
  induction a with
  | nil => exact Or.inl rfl
  | cons tok rest ih =>
    cases tok with
    | text c => exact ih h
    | escape n locale digits =>
      simp only [escapesAbove, Bool.and_eq_true, decide_eq_true_eq] at h
      right
      rcases ih h.2 with hr | ⟨k, hr, hk⟩
      · exact ⟨n, by simp [minEscape, hr], h.1⟩
      · exact ⟨min n k, by simp [minEscape, hr], by omega⟩

/-- Filling the one marker `%d` of a string whose other markers have higher
numbers: the text before the marker holds no marker and ends in a neutral
character, the text after it starts with one. -/
theorem arg_fill (pre : List Char) (c0 dch c1 : Char) (n : Nat) (post : List Char)
    (a larg : String)
    (hpre : minEscape (argTokens pre) = none) (hc0 : neutralChar c0 = true)
    (hd : digitValue dch = some n) (hc1 : neutralChar c1 = true)
    (hpost : escapesAbove n (argTokens post) = true) :
    QString.arg ⟨pre ++ c0 :: '%' :: dch :: c1 :: post⟩ a larg =
      ⟨pre ++ c0 :: (a.data ++ c1 :: post)⟩ := by
  obtain ⟨h1, h2, h3⟩ := neutralChar_spec c1 hc1
  have hLd : digitValue 'L' = none := by decide
  have hL : dch ≠ 'L' := by
    intro h
    rw [h, hLd] at hd
    exact Option.noConfusion hd
  have htoks : argTokens (pre ++ c0 :: '%' :: dch :: c1 :: post) =
      argTokens pre ++ ArgToken.text c0 :: ArgToken.escape n false [dch] ::
        ArgToken.text c1 :: argTokens post := by
    unfold argTokens
    rw [argScan_neutral c0 hc0]
    simp [argScan, hL, hd, h1, h3]
  have hmin : minEscape (argTokens (pre ++ c0 :: '%' :: dch :: c1 :: post)) = some n := by
    rw [htoks, minEscape_append_of_none _ _ hpre]
    rcases minEscape_of_above n _ hpost with hr | ⟨k, hr, hk⟩
    · simp [minEscape, hr]
    · simp [minEscape, hr]
      omega
  unfold QString.arg
  simp only [hmin]
  rw [htoks, fillTokens_append, fillTokens_of_none _ _ _ _ hpre]
  have hrp : renderTokens (argTokens pre) = pre := by
    unfold argTokens
    rw [renderTokens_argScan]
    rfl
  have hrq : renderTokens (argTokens post) = post := by
    unfold argTokens
    rw [renderTokens_argScan]
    rfl
  simp [fillTokens, replaceToken, fillTokens_of_above _ _ _ _ hpost, hrp, hrq]

/-- A text without a marker, a neutral character, a text without a marker:
no marker. -/
theorem minEscape_join (l1 : List Char) (c : Char) (l2 : List Char)
    (h1 : minEscape (argTokens l1) = none) (hc : neutralChar c = true)
    (h2 : minEscape (argTokens l2) = none) :
    minEscape (argTokens (l1 ++ c :: l2)) = none := by
  unfold argTokens at *
  rw [argScan_neutral c hc, minEscape_append_of_none _ _ h1]
  simpa [minEscape] using h2


theorem minEscape_of_hasPlaceMarker (s : String) (h : hasPlaceMarker s = false) :
    minEscape (argTokens s.data) = none := by
  simpa [hasPlaceMarker] using h

theorem themedPixmapName_eq (env : Env) (flavor name : String) (size : Nat)
    (hf : hasPlaceMarker flavor = false) (hn : hasPlaceMarker name = false) :
    themedPixmapName env flavor name size = specThemedPath flavor name size := by
  have hF := minEscape_of_hasPlaceMarker flavor hf
  have hN := minEscape_of_hasPlaceMarker name hn
  have hA : minEscape (argTokens ":/client/theme".data) = none := by decide
  have hAF := minEscape_join _ '/' _ hA (by decide) hF
  have hAFN := minEscape_join _ '/' _ hAF (by decide) hN
  have h0 : (":/client/theme/%1/%2-%3.png" : String) =
      ⟨":/client/theme".data ++ '/' :: '%' :: '1' :: '/' :: "%2-%3.png".data⟩ := by decide
  have h1 := arg_fill ":/client/theme".data '/' '1' '/' 1 "%2-%3.png".data flavor flavor
    hA (by decide) (by decide) (by decide) (by decide)
  have e2 : ":/client/theme".data ++ '/' :: (flavor.data ++ '/' :: "%2-%3.png".data) =
      (":/client/theme".data ++ '/' :: flavor.data) ++
        '/' :: '%' :: '2' :: '-' :: "%3.png".data := by
    have : "%2-%3.png".data = '%' :: '2' :: '-' :: "%3.png".data := by decide
    rw [this]
    simp
  have h2 := arg_fill (":/client/theme".data ++ '/' :: flavor.data) '/' '2' '-' 2
    "%3.png".data name name hAF (by decide) (by decide) (by decide) (by decide)
  have e3 : (":/client/theme".data ++ '/' :: flavor.data) ++
        '/' :: (name.data ++ '-' :: "%3.png".data) =
      ((":/client/theme".data ++ '/' :: flavor.data) ++ '/' :: name.data) ++
        '-' :: '%' :: '3' :: '.' :: "png".data := by
    have : "%3.png".data = '%' :: '3' :: '.' :: "png".data := by decide
    rw [this]
    simp
  have h3 := arg_fill ((":/client/theme".data ++ '/' :: flavor.data) ++ '/' :: name.data)
    '-' '3' '.' 3 "png".data (toString size) (env.localeNumber size) hAFN (by decide) (by decide)
    (by decide) (by decide)
  unfold themedPixmapName specThemedPath
  rw [h0, h1, e2, h2, e3, h3]
  apply String.ext
  have d1 : (":/client/theme/" : String).data = ":/client/theme".data ++ ['/'] := by decide
  have d2 : ("/" : String).data = ['/'] := by decide
  have d3 : ("-" : String).data = ['-'] := by decide
  have d4 : (".png" : String).data = '.' :: "png".data := by decide
  simp only [String.data_append, d1, d2, d3, d4]
  simp

theorem flatPixmapName_eq (env : Env) (name : String) (size : Nat)
    (hn : hasPlaceMarker name = false) :
    flatPixmapName env name size = specFlatPath name size := by
  have hN := minEscape_of_hasPlaceMarker name hn
  have hA : minEscape (argTokens ":/client/resources".data) = none := by decide
  have hAN := minEscape_join _ '/' _ hA (by decide) hN
  have h0 : (":/client/resources/%1-%2.png" : String) =
      ⟨":/client/resources".data ++ '/' :: '%' :: '1' :: '-' :: "%2.png".data⟩ := by decide
  have h1 := arg_fill ":/client/resources".data '/' '1' '-' 1 "%2.png".data name name
    hA (by decide) (by decide) (by decide) (by decide)
  have e2 : ":/client/resources".data ++ '/' :: (name.data ++ '-' :: "%2.png".data) =
      (":/client/resources".data ++ '/' :: name.data) ++
        '-' :: '%' :: '2' :: '.' :: "png".data := by
    have : "%2.png".data = '%' :: '2' :: '.' :: "png".data := by decide
    rw [this]
    simp
  have h2 := arg_fill (":/client/resources".data ++ '/' :: name.data) '-' '2' '.' 2
    "png".data (toString size) (env.localeNumber size) hAN (by decide) (by decide) (by decide) (by decide)
  unfold flatPixmapName specFlatPath
  rw [h0, h1, e2, h2]
  apply String.ext
  have d1 : (":/client/resources/" : String).data = ":/client/resources".data ++ ['/'] := by
    decide
  have d3 : ("-" : String).data = ['-'] := by decide
  have d4 : (".png" : String).data = '.' :: "png".data := by decide
  simp only [String.data_append, d1, d3, d4]
  simp

/-! ## Lemmas on the flavor and the cache key -/

theorem lastChar_key (name flavor : String) (c : Char) (pre : List Char)
    (h : flavor.data = pre ++ [c]) :
    (themeIconKey name flavor).data.reverse.head? = some c := by
  simp [themeIconKey, h]

theorem themeIconFlavor_cases (env : Env) (mono sysTray sysTrayMenuVisible : Bool) :
    themeIconFlavor env mono sysTray sysTrayMenuVisible = "colored" ∨
    themeIconFlavor env mono sysTray sysTrayMenuVisible = "white" ∨
    themeIconFlavor env mono sysTray sysTrayMenuVisible = "black" := by
  unfold themeIconFlavor systrayIconFlavor
  cases sysTray <;> cases mono <;> cases sysTrayMenuVisible <;>
    cases env.isMac <;> cases env.hasDarkSystray <;> simp

theorem themeIconKey_inj_of_flavors (n1 n2 f1 f2 : String)
    (h1 : f1 = "colored" ∨ f1 = "white" ∨ f1 = "black")
    (h2 : f2 = "colored" ∨ f2 = "white" ∨ f2 = "black")
    (h : themeIconKey n1 f1 = themeIconKey n2 f2) : n1 = n2 ∧ f1 = f2 := by
  have hlast : (themeIconKey n1 f1).data.reverse.head? =
      (themeIconKey n2 f2).data.reverse.head? := by
    rw [h]
  have hc (n : String) : (themeIconKey n "colored").data.reverse.head? = some 'd' :=
    lastChar_key n "colored" 'd' ['c', 'o', 'l', 'o', 'r', 'e'] rfl
  have hw (n : String) : (themeIconKey n "white").data.reverse.head? = some 'e' :=
    lastChar_key n "white" 'e' ['w', 'h', 'i', 't'] rfl
  have hb (n : String) : (themeIconKey n "black").data.reverse.head? = some 'k' :=
    lastChar_key n "black" 'k' ['b', 'l', 'a', 'c'] rfl
  have hsame : f1 = f2 := by
    rcases h1 with rfl | rfl | rfl <;> rcases h2 with rfl | rfl | rfl <;>
      first
        | rfl
        | (exfalso; simp only [hc, hw, hb] at hlast; revert hlast; decide)
  subst hsame
  refine ⟨?_, rfl⟩
  have hd := congrArg String.data h
  simp only [themeIconKey, String.data_append] at hd
  exact String.ext (List.append_cancel_right (List.append_cancel_right hd))

/-! ## Lemmas on `themeIcon` -/

theorem IconCache.set_same (cache : IconCache) (key : String) (icon : QIcon) :
    cache.set key icon key = some icon := by
  simp [IconCache.set]

theorem IconCache.set_other (cache : IconCache) (key k : String) (icon : QIcon) (h : k ≠ key) :
    cache.set key icon k = cache k := by
  simp [IconCache.set, h]

/-- The cache after a call is the cache before it with the returned icon
written under the key of the call. -/
theorem themeIcon_cache (env : Env) (t : Theme) (name : String) (sysTray menuVisible : Bool) :
    (themeIcon env t name sysTray menuVisible).theme._iconCache =
      t._iconCache.set (themeIconKey name (themeIconFlavor env t._mono sysTray menuVisible))
        (themeIcon env t name sysTray menuVisible).icon := by
  unfold themeIcon
  simp only
  split
  · split
    · rfl
    · rfl
  · rfl

theorem themeIcon_mono (env : Env) (t : Theme) (name : String) (sysTray menuVisible : Bool) :
    (themeIcon env t name sysTray menuVisible).theme._mono = t._mono := by
  unfold themeIcon
  simp only
  split
  · split
    · rfl
    · rfl
  · rfl

/-- Every query of a call is one of: the two system-theme queries for the
name, a `QFile::exists` on a themed path of the flavor of the call, a
`QFile::exists` on a flat path of the name. -/
theorem themeIcon_probes (env : Env) (t : Theme) (name : String) (sysTray menuVisible : Bool) :
    ∀ p ∈ (themeIcon env t name sysTray menuVisible).probes,
      p = Probe.hasThemeIcon name ∨ p = Probe.fromTheme name ∨
      ∃ size ∈ sizes,
        p = Probe.fileExists
            (themedPixmapName env (themeIconFlavor env t._mono sysTray menuVisible) name size) ∨
        p = Probe.fileExists (flatPixmapName env name size) := by
  intro p hp
  unfold themeIcon at hp
  simp only at hp
  split at hp
  · split at hp
    · simp only [List.mem_cons, List.mem_singleton, List.not_mem_nil, or_false] at hp
      rcases hp with hp | hp
      · exact Or.inl hp
      · exact Or.inr (Or.inl hp)
    · simp only [finish] at hp
      rcases bundledLookup_probes env _ name _ p hp with h | h
      · simp only [List.mem_singleton] at h
        exact Or.inl h
      · exact Or.inr (Or.inr h)
  · simp [finish] at hp

/-! ## Status mapper: the table of `syncStateIcon` -/

/-- C1: for every status value, `syncStateIcon` calls `themeIcon` with the
name `statusIcon status`; that name is never empty, the four groups map to
"state-sync", "state-pause", "state-ok" and "state-error" as the table says,
and a value that is none of the enumerators maps to "state-error". -/
theorem syncStateIcon_name_table (env : Env) (t : Theme) (status : SyncResult.Status)
    (sysTray menuVisible : Bool) :
    syncStateIcon env t status sysTray menuVisible =
        themeIcon env t (statusIcon status) sysTray menuVisible ∧
    statusIcon status ≠ "" ∧
    statusIcon SyncResult.Status.NotYetStarted = "state-sync" ∧
    statusIcon SyncResult.Status.SyncRunning = "state-sync" ∧
    statusIcon SyncResult.Status.SyncAbortRequested = "state-pause" ∧
    statusIcon SyncResult.Status.Paused = "state-pause" ∧
    statusIcon SyncResult.Status.SyncPrepare = "state-ok" ∧
    statusIcon SyncResult.Status.Success = "state-ok" ∧
    statusIcon SyncResult.Status.Error = "state-error" ∧
    statusIcon SyncResult.Status.SetupError = "state-error" ∧
    ∀ raw : Int, statusIcon (SyncResult.Status.unnamed raw) = "state-error" := by
  refine ⟨rfl, ?_, rfl, rfl, rfl, rfl, rfl, rfl, rfl, rfl, fun _ => rfl⟩
  cases status <;> simp [statusIcon]

/-- C2, refuted as stated: `Undefined` and `Problem` are different status
values and `syncStateIcon` gives both the same icon name. -/
theorem undefined_problem_share_name :
    SyncResult.Status.Undefined ≠ SyncResult.Status.Problem ∧
    statusIcon SyncResult.Status.Undefined = statusIcon SyncResult.Status.Problem := by
  exact ⟨by decide, rfl⟩

/-- C2, amended: `Undefined` and `Problem` form a fifth shared group; the name
"state-information" is the name of exactly these two status values. -/
theorem state_information_iff (status : SyncResult.Status) :
    statusIcon status = "state-information" ↔
      status = SyncResult.Status.Undefined ∨ status = SyncResult.Status.Problem := by
  cases status <;> simp [statusIcon]

/-! ## Flavor and cache key -/

/-- C8, refuted as stated: under `Q_OS_MAC`, with the mono flag off, a systray
request with the menu visible uses the flavor "colored", which is not the light
mono flavor "white"; the cache entry it writes is under "state-sync,colored"
and the themed path it asks for is a `colored` one. -/
theorem mac_menuVisible_colored :
    macBareEnv.isMac = true ∧ freshTheme._mono = false ∧
    systrayIconFlavor macBareEnv true false = "white" ∧
    themeIconFlavor macBareEnv freshTheme._mono true true = "colored" ∧
    (themeIcon macBareEnv freshTheme "state-sync" true true).theme._iconCache
        "state-sync,white" = none ∧
    (themeIcon macBareEnv freshTheme "state-sync" true true).theme._iconCache
        "state-sync,colored" = some QIcon.null ∧
    Probe.fileExists ":/client/theme/colored/state-sync-16.png" ∈
      (themeIcon macBareEnv freshTheme "state-sync" true true).probes := by
  decide

/-- C8, amended: under `Q_OS_MAC`, for every name and every value of the
dark-tray probe, a systray request with the menu visible uses the flavor
"white" when the mono flag is set and "colored" when it is not: that flavor is
in the key of the cache entry the call writes and in every themed path the call
asks for. -/
theorem mac_menuVisible_flavor (env : Env) (t : Theme) (name : String)
    (hmac : env.isMac = true) :
    themeIconFlavor env t._mono true true = (if t._mono then "white" else "colored") ∧
    (themeIcon env t name true true).theme._iconCache =
      t._iconCache.set (name ++ "," ++ (if t._mono then "white" else "colored"))
        (themeIcon env t name true true).icon ∧
    ∀ p ∈ (themeIcon env t name true true).probes,
      p = Probe.hasThemeIcon name ∨ p = Probe.fromTheme name ∨
      ∃ size ∈ sizes,
        p = Probe.fileExists
            (themedPixmapName env (if t._mono then "white" else "colored") name size) ∨
        p = Probe.fileExists (flatPixmapName env name size) := by
  have hflavor : themeIconFlavor env t._mono true true =
      (if t._mono then "white" else "colored") := by
    unfold themeIconFlavor systrayIconFlavor
    cases t._mono <;> simp [hmac]
  refine ⟨hflavor, ?_, ?_⟩
  · have h := themeIcon_cache env t name true true
    rw [hflavor] at h
    exact h
  · have h := themeIcon_probes env t name true true
    rw [hflavor] at h
    exact h

theorem mac_menuVisible_flavor_witness :
    macBareEnv.isMac = true ∧
    themeIconFlavor macBareEnv true true true = "white" ∧
    (themeIcon macBareEnv ⟨true, fun _ => none⟩ "state-sync" true true).theme._iconCache
        "state-sync,white" = some QIcon.null :=
  ⟨rfl, (mac_menuVisible_flavor macBareEnv ⟨true, fun _ => none⟩ "state-sync" rfl).1,
    by rw [(mac_menuVisible_flavor macBareEnv ⟨true, fun _ => none⟩ "state-sync" rfl).2.1]; decide⟩

/-- C9, refuted as stated: with the mono flag set, a systray request on a dark
tray computes the flavor "white", which is none of "colored", "mono-light",
"mono-dark", and writes its cache entry under "state-sync,white". -/
theorem flavor_white_not_in_spec_set :
    themeIconFlavor twoFlavorEnv true true false = "white" ∧
    ¬ (themeIconFlavor twoFlavorEnv true true false = "colored" ∨
       themeIconFlavor twoFlavorEnv true true false = "mono-light" ∨
       themeIconFlavor twoFlavorEnv true true false = "mono-dark") ∧
    ((themeIcon twoFlavorEnv ⟨true, fun _ => none⟩ "state-sync" true false).theme._iconCache
        "state-sync,white").isSome = true := by
  decide

/-- C9, amended: on every platform branch and for all flag values the flavor
`themeIcon` computes is one of "colored", "white", "black"; the call writes its
cache entry under `name + "," + flavor`, and every themed path it asks for is
`themedPixmapName env flavor name size` for a size of the list. -/
theorem themeIcon_flavor_range (env : Env) (t : Theme) (name : String)
    (sysTray menuVisible : Bool) :
    (themeIconFlavor env t._mono sysTray menuVisible = "colored" ∨
      themeIconFlavor env t._mono sysTray menuVisible = "white" ∨
      themeIconFlavor env t._mono sysTray menuVisible = "black") ∧
    (themeIcon env t name sysTray menuVisible).theme._iconCache =
      t._iconCache.set (name ++ "," ++ themeIconFlavor env t._mono sysTray menuVisible)
        (themeIcon env t name sysTray menuVisible).icon ∧
    ∀ p ∈ (themeIcon env t name sysTray menuVisible).probes,
      p = Probe.hasThemeIcon name ∨ p = Probe.fromTheme name ∨
      ∃ size ∈ sizes,
        p = Probe.fileExists
            (themedPixmapName env (themeIconFlavor env t._mono sysTray menuVisible) name size) ∨
        p = Probe.fileExists (flatPixmapName env name size) :=
  ⟨themeIconFlavor_cases env t._mono sysTray menuVisible,
    themeIcon_cache env t name sysTray menuVisible,
    themeIcon_probes env t name sysTray menuVisible⟩

/-- C10: the cache key `name + "," + flavor` identifies the pair.  For all
names (commas allowed) and all flavors the flavor computation produces, equal
keys force equal names and equal flavors. -/
theorem themeIconKey_injective (n1 n2 : String) (env1 env2 : Env)
    (mono1 sysTray1 menuVisible1 mono2 sysTray2 menuVisible2 : Bool)
    (h : themeIconKey n1 (themeIconFlavor env1 mono1 sysTray1 menuVisible1) =
      themeIconKey n2 (themeIconFlavor env2 mono2 sysTray2 menuVisible2)) :
    n1 = n2 ∧
    themeIconFlavor env1 mono1 sysTray1 menuVisible1 =
      themeIconFlavor env2 mono2 sysTray2 menuVisible2 :=
  themeIconKey_inj_of_flavors n1 n2 _ _
    (themeIconFlavor_cases env1 mono1 sysTray1 menuVisible1)
    (themeIconFlavor_cases env2 mono2 sysTray2 menuVisible2) h

theorem themeIconKey_injective_witness :
    themeIconKey "a,white" (themeIconFlavor bareEnv false true false) =
      themeIconKey "a,white" (themeIconFlavor macBareEnv true false true) ∧
    ("a,white" = "a,white" ∧
      themeIconFlavor bareEnv false true false = themeIconFlavor macBareEnv true false true) :=
  ⟨rfl, themeIconKey_injective "a,white" "a,white" bareEnv macBareEnv false true false
    true false true rfl⟩

/-! ## The three paths of `themeIcon` -/

theorem value_of_entry (cache : IconCache) (key : String) (stored : QIcon)
    (h : cache key = some stored) : cache.value key = stored := by
  simp [IconCache.value, h]

/-- Cache hit: the entry under the key is not null. -/
theorem themeIcon_hit (env : Env) (t : Theme) (name : String) (sysTray menuVisible : Bool)
    (hhit : (t._iconCache.value
      (themeIconKey name (themeIconFlavor env t._mono sysTray menuVisible))).isNull = false) :
    themeIcon env t name sysTray menuVisible =
      finish env t (themeIconKey name (themeIconFlavor env t._mono sysTray menuVisible))
        sysTray menuVisible
        (t._iconCache.value
          (themeIconKey name (themeIconFlavor env t._mono sysTray menuVisible)), []) := by
  unfold themeIcon
  simp [hhit]

/-- Cache miss and the system theme has the name. -/
theorem themeIcon_fromTheme (env : Env) (t : Theme) (name : String) (sysTray menuVisible : Bool)
    (hmiss : (t._iconCache.value
      (themeIconKey name (themeIconFlavor env t._mono sysTray menuVisible))).isNull = true)
    (hth : env.hasThemeIcon name = true) :
    themeIcon env t name sysTray menuVisible =
      ⟨QIcon.fromTheme name,
        ⟨t._mono, t._iconCache.set
          (themeIconKey name (themeIconFlavor env t._mono sysTray menuVisible))
          (QIcon.fromTheme name)⟩,
        [Probe.hasThemeIcon name, Probe.fromTheme name]⟩ := by
  unfold themeIcon
  simp [hmiss, hth]

/-- Cache miss and the system theme does not have the name. -/
theorem themeIcon_bundled (env : Env) (t : Theme) (name : String) (sysTray menuVisible : Bool)
    (hmiss : (t._iconCache.value
      (themeIconKey name (themeIconFlavor env t._mono sysTray menuVisible))).isNull = true)
    (hth : env.hasThemeIcon name = false) :
    themeIcon env t name sysTray menuVisible =
      finish env t (themeIconKey name (themeIconFlavor env t._mono sysTray menuVisible))
        sysTray menuVisible
        (bundledLookup env (themeIconFlavor env t._mono sysTray menuVisible) name
          (t._iconCache.value
            (themeIconKey name (themeIconFlavor env t._mono sysTray menuVisible)),
           [Probe.hasThemeIcon name])) := by
  unfold themeIcon
  simp [hmiss, hth]

theorem finish_layers (env : Env) (t : Theme) (key : String) (sysTray menuVisible : Bool)
    (acc : QIcon × List Probe) :
    (finish env t key sysTray menuVisible acc).icon.layers = acc.1.layers ∧
    (finish env t key sysTray menuVisible acc).icon.themeName = acc.1.themeName := by
  unfold finish
  cases env.isMac <;> simp [QIcon.setIsMask]

/-! ## Cache hit, system-theme short circuit, bundled layers -/

/-- C4, refuted as stated: off macOS, with no asset anywhere, the first request
for "x" returns the empty icon and leaves an entry for the key "x,colored" in
the cache; the second, identical request finds that entry and still makes all
19 queries again (the system theme, nine themed paths, nine flat paths). -/
theorem empty_entry_probed_again :
    (themeIcon bareEnv freshTheme "x" false false).icon = QIcon.null ∧
    (themeIcon bareEnv freshTheme "x" false false).theme._iconCache "x,colored" =
      some QIcon.null ∧
    (themeIcon bareEnv (themeIcon bareEnv freshTheme "x" false false).theme
      "x" false false).probes.length = 19 ∧
    Probe.hasThemeIcon "x" ∈
      (themeIcon bareEnv (themeIcon bareEnv freshTheme "x" false false).theme
        "x" false false).probes ∧
    Probe.fileExists ":/client/theme/colored/x-16.png" ∈
      (themeIcon bareEnv (themeIcon bareEnv freshTheme "x" false false).theme
        "x" false false).probes ∧
    Probe.fileExists ":/client/resources/x-1024.png" ∈
      (themeIcon bareEnv (themeIcon bareEnv freshTheme "x" false false).theme
        "x" false false).probes := by
  decide

/-- C4, amended: when the cache holds an entry for the key `name + "," + flavor`
and the entry is not the empty icon, `themeIcon` makes no query at all and
returns the stored entry (under `Q_OS_MAC` with its template tag set to
`_mono && sysTray && !sysTrayMenuVisible`); when the entry is the empty icon,
the lookup runs again and its first query is the system-theme query for the
name; in both cases the icon returned is the entry under the key after the
call. -/
theorem themeIcon_cache_hit (env : Env) (t : Theme) (name : String)
    (sysTray menuVisible : Bool) (stored : QIcon)
    (hentry : t._iconCache
      (themeIconKey name (themeIconFlavor env t._mono sysTray menuVisible)) = some stored) :
    (stored.isNull = false →
      (themeIcon env t name sysTray menuVisible).probes = [] ∧
      (themeIcon env t name sysTray menuVisible).icon =
        (if env.isMac then stored.setIsMask (t._mono && sysTray && !menuVisible)
          else stored)) ∧
    (stored.isNull = true →
      (themeIcon env t name sysTray menuVisible).probes.head? =
        some (Probe.hasThemeIcon name)) ∧
    (themeIcon env t name sysTray menuVisible).theme._iconCache
      (themeIconKey name (themeIconFlavor env t._mono sysTray menuVisible)) =
        some (themeIcon env t name sysTray menuVisible).icon := by
  have hval := value_of_entry _ _ _ hentry
  refine ⟨?_, ?_, ?_⟩
  · intro hnn
    rw [themeIcon_hit env t name sysTray menuVisible (by rw [hval]; exact hnn), hval]
    simp [finish]
  · intro hnull
    by_cases hth : env.hasThemeIcon name = true
    · rw [themeIcon_fromTheme env t name sysTray menuVisible (by rw [hval]; exact hnull) hth]
      rfl
    · have hth2 : env.hasThemeIcon name = false := by simpa using hth
      rw [themeIcon_bundled env t name sysTray menuVisible (by rw [hval]; exact hnull) hth2]
      simp only [finish]
      exact bundledLookup_probes_head env _ name _ _ rfl
  · rw [themeIcon_cache]
    exact IconCache.set_same _ _ _

theorem themeIcon_cache_hit_witness :
    (IconCache.set (fun _ => none) "state-ok,colored" (QIcon.fromTheme "state-ok"))
      (themeIconKey "state-ok" (themeIconFlavor fullEnv false false false)) =
        some (QIcon.fromTheme "state-ok") ∧
    (QIcon.fromTheme "state-ok").isNull = false ∧
    (themeIcon fullEnv
      ⟨false, IconCache.set (fun _ => none) "state-ok,colored" (QIcon.fromTheme "state-ok")⟩
      "state-ok" false false).probes = [] ∧
    (themeIcon fullEnv
      ⟨false, IconCache.set (fun _ => none) "state-ok,colored" (QIcon.fromTheme "state-ok")⟩
      "state-ok" false false).icon = QIcon.fromTheme "state-ok" ∧
    (freshTheme._iconCache.set "x,colored" QIcon.null)
      (themeIconKey "x" (themeIconFlavor bareEnv false false false)) = some QIcon.null ∧
    QIcon.null.isNull = true ∧
    (themeIcon bareEnv ⟨false, freshTheme._iconCache.set "x,colored" QIcon.null⟩
      "x" false false).probes.head? = some (Probe.hasThemeIcon "x") :=
  ⟨by decide, by decide,
    ((themeIcon_cache_hit fullEnv
      ⟨false, IconCache.set (fun _ => none) "state-ok,colored" (QIcon.fromTheme "state-ok")⟩
      "state-ok" false false (QIcon.fromTheme "state-ok") (by decide)).1 (by decide)).1,
    ((themeIcon_cache_hit fullEnv
      ⟨false, IconCache.set (fun _ => none) "state-ok,colored" (QIcon.fromTheme "state-ok")⟩
      "state-ok" false false (QIcon.fromTheme "state-ok") (by decide)).1 (by decide)).2,
    by decide, by decide,
    (themeIcon_cache_hit bareEnv ⟨false, freshTheme._iconCache.set "x,colored" QIcon.null⟩
      "x" false false QIcon.null (by decide)).2.1 (by decide)⟩

/-- C5: on a cache miss (no entry, or an empty one, under the key), when the
system icon theme has the name, `themeIcon` returns exactly the system-theme
icon, stores it under the key, and its only queries are the two to the system
theme: no `QFile::exists` on any resource path, themed or flat, whatever the
resources hold; the icon has no bundled layer. -/
theorem themeIcon_system_theme_short_circuit (env : Env) (t : Theme) (name : String)
    (sysTray menuVisible : Bool)
    (hmiss : (t._iconCache.value
      (themeIconKey name (themeIconFlavor env t._mono sysTray menuVisible))).isNull = true)
    (hth : env.hasThemeIcon name = true) :
    (themeIcon env t name sysTray menuVisible).icon = QIcon.fromTheme name ∧
    (themeIcon env t name sysTray menuVisible).theme._iconCache
      (themeIconKey name (themeIconFlavor env t._mono sysTray menuVisible)) =
        some (QIcon.fromTheme name) ∧
    (themeIcon env t name sysTray menuVisible).probes =
      [Probe.hasThemeIcon name, Probe.fromTheme name] ∧
    (∀ path, Probe.fileExists path ∉ (themeIcon env t name sysTray menuVisible).probes) ∧
    (themeIcon env t name sysTray menuVisible).icon.layers = [] := by
  rw [themeIcon_fromTheme env t name sysTray menuVisible hmiss hth]
  refine ⟨rfl, IconCache.set_same _ _ _, rfl, ?_, rfl⟩
  intro path
  simp

theorem themeIcon_system_theme_short_circuit_witness :
    (freshTheme._iconCache.value
      (themeIconKey "state-error"
        (themeIconFlavor fullEnv freshTheme._mono false false))).isNull = true ∧
    fullEnv.hasThemeIcon "state-error" = true ∧
    fullEnv.fileExists (themedPixmapName fullEnv "colored" "state-error" 16) = true ∧
    fullEnv.fileExists (flatPixmapName fullEnv "state-error" 16) = true ∧
    (themeIcon fullEnv freshTheme "state-error" false false).icon =
      QIcon.fromTheme "state-error" ∧
    (themeIcon fullEnv freshTheme "state-error" false false).probes =
      [Probe.hasThemeIcon "state-error", Probe.fromTheme "state-error"] :=
  ⟨by decide, rfl, rfl, rfl,
    (themeIcon_system_theme_short_circuit fullEnv freshTheme "state-error" false false
      (by decide) rfl).1,
    (themeIcon_system_theme_short_circuit fullEnv freshTheme "state-error" false false
      (by decide) rfl).2.2.1⟩

/-! ## The layers of a freshly built icon -/

theorem argScan_no_percent (l : List Char) (h : '%' ∉ l) :
    argScan ArgPending.idle l = l.map ArgToken.text := by
  induction l with
  | nil => rfl
  | cons c rest ih =>
    have hc : c ≠ '%' := fun hc => h (by simp [hc])
    have hr : '%' ∉ rest := fun hr => h (List.mem_cons_of_mem _ hr)
    simp [argScan, hc, ih hr]

theorem minEscape_map_text (l : List Char) : minEscape (l.map ArgToken.text) = none := by
  induction l with
  | nil => rfl
  | cons c rest ih => simpa [minEscape] using ih

/-- A string without the character `%` holds no place marker. -/
theorem hasPlaceMarker_of_no_percent (s : String) (h : '%' ∉ s.data) :
    hasPlaceMarker s = false := by
  simp [hasPlaceMarker, argTokens, argScan_no_percent s.data h, minEscape_map_text]

theorem themeIconFlavor_noMarker (env : Env) (mono sysTray menuVisible : Bool) :
    hasPlaceMarker (themeIconFlavor env mono sysTray menuVisible) = false := by
  rcases themeIconFlavor_cases env mono sysTray menuVisible with h | h | h <;>
    (rw [h]; decide)

/-- Where every file of the list that exists decodes, the themed loop adds one
pixmap for each file that exists. -/
theorem filterMap_loadPixmap (env : Env) (path : Nat → String) (l : List Nat)
    (hdec : ∀ size ∈ l, env.fileExists (path size) = true → env.pixmapLoads (path size) = true) :
    (l.filter (fun size => env.fileExists (path size))).filterMap
        (fun size => (loadPixmap env (path size)).map IconLayer.pixmap) =
      (l.filter (fun size => env.fileExists (path size))).map
        (fun size => IconLayer.pixmap ⟨path size, env.desktopSession == "ubuntu"⟩) := by
  induction l with
  | nil => rfl
  | cons size rest ih =>
    have ih2 := ih (fun x hx => hdec x (List.mem_cons_of_mem _ hx))
    by_cases h : env.fileExists (path size) = true
    · have hl := hdec size (List.mem_cons_self _ _) h
      have hp : (loadPixmap env (path size)).map IconLayer.pixmap =
          some (IconLayer.pixmap ⟨path size, env.desktopSession == "ubuntu"⟩) := by
        simp [loadPixmap, hl]
      simp only [List.filter_cons, h, if_true, List.map_cons]
      rw [List.filterMap_cons, hp, ih2]
    · simp only [List.filter_cons, h]
      exact ih2

/-- For a name without a place marker whose themed files decode, the layers
the two loops build are the reference layers. -/
theorem builtLayers_eq_specLayers (env : Env) (flavor name : String)
    (hflavor : hasPlaceMarker flavor = false) (hname : hasPlaceMarker name = false)
    (hdec : ∀ size ∈ sizes, env.fileExists (specThemedPath flavor name size) = true →
      env.pixmapLoads (specThemedPath flavor name size) = true) :
    builtLayers env flavor name = specLayers env flavor name := by
  unfold builtLayers specLayers
  simp only [themedPixmapName_eq env flavor name _ hflavor hname,
    flatPixmapName_eq env name _ hname]
  rw [filterMap_loadPixmap env (fun size => specThemedPath flavor name size) sizes hdec]
  by_cases hthemed :
      sizes.filter (fun size => env.fileExists (specThemedPath flavor name size)) = []
  · simp [hthemed]
  · have hmap : (sizes.filter (fun size => env.fileExists (specThemedPath flavor name size))).map
        (fun size => IconLayer.pixmap
          ⟨specThemedPath flavor name size, env.desktopSession == "ubuntu"⟩) ≠ [] := by
      simpa using hthemed
    simp only [ne_eq, hthemed, not_false_eq_true, if_true]
    rw [if_neg hmap]

/-- C6, refuted as stated, at two inputs.  For the name `a%1` the themed asset
`theme/colored/a%1-16` exists, so the reference layers hold one themed layer,
but `.arg(size)` fills the `%1` of the name: the code asks for
`a16-%3.png` and `a16-%2.png`, finds nothing and returns an icon without
layers.  For the name `app` the themed asset of size 16 exists but does not
decode: the reference layers hold it, the code adds no layer. -/
theorem marker_name_breaks_layers :
    '%' ∈ "a%1".data ∧
    hasPlaceMarker "a%1" = true ∧
    markerEnv.fileExists ":/client/theme/colored/a%1-16.png" = true ∧
    specLayers markerEnv "colored" "a%1" =
      [IconLayer.pixmap ⟨":/client/theme/colored/a%1-16.png", false⟩] ∧
    themedPixmapName markerEnv "colored" "a%1" 16 = ":/client/theme/colored/a16-%3.png" ∧
    flatPixmapName markerEnv "a%1" 16 = ":/client/resources/a16-%2.png" ∧
    (freshTheme._iconCache.value
      (themeIconKey "a%1" (themeIconFlavor markerEnv freshTheme._mono false false))).isNull
        = true ∧
    markerEnv.hasThemeIcon "a%1" = false ∧
    (themeIcon markerEnv freshTheme "a%1" false false).icon.layers = [] ∧
    undecodableEnv.fileExists ":/client/theme/colored/app-16.png" = true ∧
    undecodableEnv.pixmapLoads ":/client/theme/colored/app-16.png" = false ∧
    specLayers undecodableEnv "colored" "app" =
      [IconLayer.pixmap ⟨":/client/theme/colored/app-16.png", false⟩] ∧
    (themeIcon undecodableEnv freshTheme "app" false false).icon.layers = [] := by
  decide

/-- C6, amended: for an icon name without the character `%` (so that it holds
no place marker of `QString::arg`) whose existing themed assets decode, on a
cache miss with no system-theme icon, the layers of the icon `themeIcon`
builds are the reference layers `specLayers`: the themed assets
`theme/<flavor>/<name>-<size>` of the sizes that exist, in list order, if there
is one (and then no flat asset), otherwise the flat assets
`resources/<name>-<size>` of the sizes that exist; the icon has no theme engine,
it is stored under the key, and when no asset exists for any size it is the
empty icon: it has no layer either. -/
theorem themeIcon_layers_spec (env : Env) (t : Theme) (name : String)
    (sysTray menuVisible : Bool)
    (hmiss : (t._iconCache.value
      (themeIconKey name (themeIconFlavor env t._mono sysTray menuVisible))).isNull = true)
    (hth : env.hasThemeIcon name = false)
    (hname : '%' ∉ name.data)
    (hdec : ∀ size ∈ sizes,
      env.fileExists
        (specThemedPath (themeIconFlavor env t._mono sysTray menuVisible) name size) = true →
      env.pixmapLoads
        (specThemedPath (themeIconFlavor env t._mono sysTray menuVisible) name size) = true) :
    (themeIcon env t name sysTray menuVisible).icon.layers =
      specLayers env (themeIconFlavor env t._mono sysTray menuVisible) name ∧
    (themeIcon env t name sysTray menuVisible).icon.themeName = none ∧
    (themeIcon env t name sysTray menuVisible).theme._iconCache
      (themeIconKey name (themeIconFlavor env t._mono sysTray menuVisible)) =
        some (themeIcon env t name sysTray menuVisible).icon ∧
    ((∀ size ∈ sizes,
        env.fileExists
          (specThemedPath (themeIconFlavor env t._mono sysTray menuVisible) name size) = false ∧
        env.fileExists (specFlatPath name size) = false) →
      (themeIcon env t name sysTray menuVisible).icon.layers = []) := by
  have hcache := themeIcon_cache env t name sysTray menuVisible
  have hlayers : (themeIcon env t name sysTray menuVisible).icon.layers =
        specLayers env (themeIconFlavor env t._mono sysTray menuVisible) name ∧
      (themeIcon env t name sysTray menuVisible).icon.themeName = none := by
    rw [themeIcon_bundled env t name sysTray menuVisible hmiss hth]
    rw [(finish_layers env t _ sysTray menuVisible _).1,
      (finish_layers env t _ sysTray menuVisible _).2,
      bundledLookup_icon env _ name _ hmiss]
    exact ⟨builtLayers_eq_specLayers env _ name
      (themeIconFlavor_noMarker env t._mono sysTray menuVisible)
      (hasPlaceMarker_of_no_percent name hname) hdec, rfl⟩
  refine ⟨hlayers.1, hlayers.2, ?_, ?_⟩
  · rw [hcache]
    exact IconCache.set_same _ _ _
  · intro hnone
    have h1 : sizes.filter (fun size => env.fileExists
        (specThemedPath (themeIconFlavor env t._mono sysTray menuVisible) name size)) = [] := by
      rw [List.filter_eq_nil_iff]
      intro size hs
      simp [(hnone size hs).1]
    have h2 : sizes.filter (fun size => env.fileExists (specFlatPath name size)) = [] := by
      rw [List.filter_eq_nil_iff]
      intro size hs
      simp [(hnone size hs).2]
    rw [hlayers.1]
    simp [specLayers, h1, h2]

theorem themeIcon_layers_spec_witness :
    (freshTheme._iconCache.value
      (themeIconKey "app" (themeIconFlavor partialEnv freshTheme._mono false false))).isNull
        = true ∧
    partialEnv.hasThemeIcon "app" = false ∧
    '%' ∉ "app".data ∧
    (themeIcon partialEnv freshTheme "app" false false).icon.layers =
      [IconLayer.pixmap ⟨":/client/theme/colored/app-16.png", false⟩,
       IconLayer.pixmap ⟨":/client/theme/colored/app-64.png", false⟩] ∧
    '%' ∉ "state-sync".data ∧
    (themeIcon flatEnv freshTheme "state-sync" true false).icon.layers =
      [IconLayer.file ":/client/resources/state-sync-22.png",
       IconLayer.file ":/client/resources/state-sync-48.png"] ∧
    (themeIcon bareEnv freshTheme "state-sync" true false).icon.layers = [] :=
  ⟨by decide, rfl, by decide,
    (themeIcon_layers_spec partialEnv freshTheme "app" false false (by decide) rfl (by decide)
      (fun _ _ _ => rfl)).1.trans (by decide),
    by decide,
    (themeIcon_layers_spec flatEnv freshTheme "state-sync" true false (by decide) rfl (by decide)
      (fun _ _ _ => rfl)).1.trans (by decide),
    (themeIcon_layers_spec bareEnv freshTheme "state-sync" true false (by decide) rfl (by decide)
      (fun _ _ _ => rfl)).2.2.2 (fun _ _ => ⟨rfl, rfl⟩)⟩

/-! ## Calling twice -/

/-- C3, the failing input evaluated: under `Q_OS_MAC`, with the mono flag set,
an empty cache and a system theme that has "state-sync", the first call
`themeIcon("state-sync", true, false)` returns the system-theme icon with the
template tag off (the early return skips `setIsMask`), the second call with the
same arguments returns it with the tag on, and the entry under the key
"state-sync,white" after the second call differs from the one after the first. -/
theorem mac_theme_icon_second_call_differs :
    macThemeEnv.isMac = true ∧
    (themeIcon macThemeEnv monoTheme "state-sync" true false).icon =
      ⟨some "state-sync", [], false⟩ ∧
    (themeIcon macThemeEnv (themeIcon macThemeEnv monoTheme "state-sync" true false).theme
      "state-sync" true false).icon = ⟨some "state-sync", [], true⟩ ∧
    (themeIcon macThemeEnv monoTheme "state-sync" true false).theme._iconCache
      "state-sync,white" = some ⟨some "state-sync", [], false⟩ ∧
    (themeIcon macThemeEnv (themeIcon macThemeEnv monoTheme "state-sync" true false).theme
      "state-sync" true false).theme._iconCache "state-sync,white" =
        some ⟨some "state-sync", [], true⟩ ∧
    (themeIcon macThemeEnv (themeIcon macThemeEnv monoTheme "state-sync" true false).theme
      "state-sync" true false).theme._mono = monoTheme._mono := by
  decide

/-- The `Theme` after a call, in full. -/
theorem themeIcon_theme (env : Env) (t : Theme) (name : String) (sysTray menuVisible : Bool) :
    (themeIcon env t name sysTray menuVisible).theme =
      ⟨t._mono, t._iconCache.set
        (themeIconKey name (themeIconFlavor env t._mono sysTray menuVisible))
        (themeIcon env t name sysTray menuVisible).icon⟩ := by
  have h1 := themeIcon_mono env t name sysTray menuVisible
  have h2 := themeIcon_cache env t name sysTray menuVisible
  cases hr : (themeIcon env t name sysTray menuVisible).theme with
  | mk mono cache =>
    rw [hr] at h1 h2
    simp only at h1 h2
    rw [h1, h2]

/-- The icon and the queries of a call depend on the `Theme` only through the
mono flag and the cache entry under the key of the call. -/
theorem themeIcon_congr (env : Env) (t u : Theme) (name : String) (sysTray menuVisible : Bool)
    (hmono : t._mono = u._mono)
    (hkey : t._iconCache (themeIconKey name (themeIconFlavor env t._mono sysTray menuVisible)) =
      u._iconCache (themeIconKey name (themeIconFlavor env t._mono sysTray menuVisible))) :
    (themeIcon env t name sysTray menuVisible).icon =
      (themeIcon env u name sysTray menuVisible).icon ∧
    (themeIcon env t name sysTray menuVisible).probes =
      (themeIcon env u name sysTray menuVisible).probes := by
  obtain ⟨mono, cache⟩ := t
  obtain ⟨mono2, cache2⟩ := u
  simp only at hmono hkey
  subst hmono
  have hval : IconCache.value cache
        (themeIconKey name (themeIconFlavor env mono sysTray menuVisible)) =
      IconCache.value cache2
        (themeIconKey name (themeIconFlavor env mono sysTray menuVisible)) := by
    simp only [IconCache.value, hkey]
  unfold themeIcon finish
  simp only [hval]
  split
  · split
    · exact ⟨rfl, rfl⟩
    · exact ⟨rfl, rfl⟩
  · exact ⟨rfl, rfl⟩

/-! ## Toggling the mono flag -/

theorem systrayIconFlavor_mono (env : Env) (menuVisible : Bool) :
    systrayIconFlavor env true menuVisible = "white" ∨
    systrayIconFlavor env true menuVisible = "black" := by
  unfold systrayIconFlavor
  cases menuVisible <;> cases env.isMac <;> cases env.hasDarkSystray <;> simp

theorem monoKey_ne_coloredKey (env : Env) (menuVisible : Bool) :
    themeIconKey "state-sync" (systrayIconFlavor env true menuVisible) ≠ "state-sync,colored" := by
  intro h
  have hc : ("state-sync,colored" : String) = themeIconKey "state-sync" "colored" := by decide
  rw [hc] at h
  have hf := (themeIconKey_inj_of_flavors "state-sync" "state-sync" _ "colored"
    ((systrayIconFlavor_mono env menuVisible).elim (fun h => Or.inr (Or.inl h))
      (fun h => Or.inr (Or.inr h)))
    (Or.inl rfl) h).2
  rcases systrayIconFlavor_mono env menuVisible with hw | hb
  · rw [hw] at hf
    revert hf
    decide
  · rw [hb] at hf
    revert hf
    decide

/-- What holds after every number of later calls in the mono-toggle scenario:
the flag is set, the entry under "state-sync,colored" is the icon of the first
call, and every other entry is what it would be without the first call. -/
theorem afterToggle_invariant (env : Env) (t : Theme) (menuVisible : Bool) (n : Nat)
    (hmono : t._mono = false) :
    (afterToggle env t menuVisible n)._mono = true ∧
    (withoutFirstCall env t menuVisible n)._mono = true ∧
    (afterToggle env t menuVisible n)._iconCache "state-sync,colored" =
      some (themeIcon env t "state-sync" true menuVisible).icon ∧
    ∀ k, k ≠ "state-sync,colored" →
      (afterToggle env t menuVisible n)._iconCache k =
        (withoutFirstCall env t menuVisible n)._iconCache k := by
  induction n with
  | zero =>
    have hkey : themeIconKey "state-sync" (themeIconFlavor env t._mono true menuVisible) =
        "state-sync,colored" := by
      rw [hmono]
      have hf : themeIconFlavor env false true menuVisible = "colored" := by
        simp [themeIconFlavor, systrayIconFlavor]
      rw [hf]
      decide
    have hcache := themeIcon_cache env t "state-sync" true menuVisible
    rw [hkey] at hcache
    refine ⟨rfl, rfl, ?_, ?_⟩
    · show (themeIcon env t "state-sync" true menuVisible).theme._iconCache
        "state-sync,colored" = _
      rw [hcache]
      exact IconCache.set_same _ _ _
    · intro k hk
      show (themeIcon env t "state-sync" true menuVisible).theme._iconCache k = t._iconCache k
      rw [hcache]
      exact IconCache.set_other _ _ _ _ hk
  | succ n ih =>
    obtain ⟨hm1, hm2, hcol, hrest⟩ := ih
    have hstep1 : afterToggle env t menuVisible (n + 1) =
        (themeIcon env (afterToggle env t menuVisible n) "state-sync" true menuVisible).theme := rfl
    have hstep2 : withoutFirstCall env t menuVisible (n + 1) =
        (themeIcon env (withoutFirstCall env t menuVisible n) "state-sync" true menuVisible).theme :=
      rfl
    have hflavor : themeIconFlavor env true true menuVisible =
        systrayIconFlavor env true menuVisible := rfl
    have hne := monoKey_ne_coloredKey env menuVisible
    have hicon := (themeIcon_congr env (afterToggle env t menuVisible n)
      (withoutFirstCall env t menuVisible n) "state-sync" true menuVisible (by rw [hm1, hm2])
      (hrest _ (by rw [hm1, hflavor]; exact hne))).1
    rw [hstep1, hstep2, themeIcon_theme, themeIcon_theme, hm1, hm2, hflavor]
    refine ⟨rfl, rfl, ?_, ?_⟩
    · show IconCache.set _ _ _ "state-sync,colored" = _
      rw [IconCache.set_other _ _ _ _ (Ne.symm hne), hcol]
    · intro k hk
      show IconCache.set _ _ _ k = IconCache.set _ _ _ k
      by_cases hkm : k = themeIconKey "state-sync" (systrayIconFlavor env true menuVisible)
      · subst hkm
        rw [IconCache.set_same, IconCache.set_same, hicon]
      · rw [IconCache.set_other _ _ _ _ hkm, IconCache.set_other _ _ _ _ hkm]
        exact hrest k hk

/-- C7, refuted as stated: off macOS on a dark tray, with the themed size-16
assets of "state-sync" bundled for `colored` and for `white`, the call made
with the mono flag off caches the colored icon under "state-sync,colored";
after `setSystrayUseMonoIcons(true)` the same call finds nothing under
"state-sync,white", queries the resources again and returns the icon built from
the `white` asset, not the cached colored one. -/
theorem mono_toggle_not_stale :
    freshTheme._mono = false ∧
    (themeIcon twoFlavorEnv freshTheme "state-sync" true false).icon.layers =
      [IconLayer.pixmap ⟨":/client/theme/colored/state-sync-16.png", false⟩] ∧
    (themeIcon twoFlavorEnv freshTheme "state-sync" true false).theme._iconCache
      "state-sync,colored" = some (themeIcon twoFlavorEnv freshTheme "state-sync" true false).icon ∧
    (setSystrayUseMonoIcons (themeIcon twoFlavorEnv freshTheme "state-sync" true false).theme
      true)._iconCache "state-sync,white" = none ∧
    (themeIcon twoFlavorEnv
      (setSystrayUseMonoIcons (themeIcon twoFlavorEnv freshTheme "state-sync" true false).theme
        true) "state-sync" true false).icon.layers =
      [IconLayer.pixmap ⟨":/client/theme/white/state-sync-16.png", false⟩] ∧
    (themeIcon twoFlavorEnv
      (setSystrayUseMonoIcons (themeIcon twoFlavorEnv freshTheme "state-sync" true false).theme
        true) "state-sync" true false).icon ≠
      (themeIcon twoFlavorEnv freshTheme "state-sync" true false).icon ∧
    Probe.fileExists ":/client/theme/white/state-sync-16.png" ∈
      (themeIcon twoFlavorEnv
        (setSystrayUseMonoIcons (themeIcon twoFlavorEnv freshTheme "state-sync" true false).theme
          true) "state-sync" true false).probes := by
  decide

/-- C7, amended: in the mono-toggle scenario (mono flag off, one call
`themeIcon("state-sync", sysTray=true)`, then `setSystrayUseMonoIcons(true)`)
the setter leaves the cache as it is and the entry under "state-sync,colored"
stays in the cache through every later call, but no later call with the same
arguments reads it: each one computes the flavor "white" or "black", reads and
writes the entry under `"state-sync," + flavor`, and returns the icon and makes
the queries it would if the first call had never been made. -/
theorem mono_toggle_reads_mono_key (env : Env) (t : Theme) (menuVisible : Bool) (n : Nat)
    (hmono : t._mono = false) :
    (setSystrayUseMonoIcons (themeIcon env t "state-sync" true menuVisible).theme true)._iconCache =
      (themeIcon env t "state-sync" true menuVisible).theme._iconCache ∧
    (afterToggle env t menuVisible n)._iconCache "state-sync,colored" =
      some (themeIcon env t "state-sync" true menuVisible).icon ∧
    (themeIcon env (afterToggle env t menuVisible n) "state-sync" true menuVisible).theme._iconCache
      "state-sync,colored" = some (themeIcon env t "state-sync" true menuVisible).icon ∧
    (systrayIconFlavor env true menuVisible = "white" ∨
      systrayIconFlavor env true menuVisible = "black") ∧
    (themeIcon env (afterToggle env t menuVisible n) "state-sync" true menuVisible).theme._iconCache =
      (afterToggle env t menuVisible n)._iconCache.set
        ("state-sync" ++ "," ++ systrayIconFlavor env true menuVisible)
        (themeIcon env (afterToggle env t menuVisible n) "state-sync" true menuVisible).icon ∧
    (themeIcon env (afterToggle env t menuVisible n) "state-sync" true menuVisible).icon =
      (themeIcon env (withoutFirstCall env t menuVisible n) "state-sync" true menuVisible).icon ∧
    (themeIcon env (afterToggle env t menuVisible n) "state-sync" true menuVisible).probes =
      (themeIcon env (withoutFirstCall env t menuVisible n) "state-sync" true menuVisible).probes := by
  obtain ⟨hm1, hm2, hcol, hrest⟩ := afterToggle_invariant env t menuVisible n hmono
  obtain ⟨_, _, hcol2, _⟩ := afterToggle_invariant env t menuVisible (n + 1) hmono
  have hflavor : themeIconFlavor env true true menuVisible =
      systrayIconFlavor env true menuVisible := rfl
  have hne := monoKey_ne_coloredKey env menuVisible
  have hcache := themeIcon_cache env (afterToggle env t menuVisible n) "state-sync" true menuVisible
  rw [hm1, hflavor] at hcache
  have hcongr := themeIcon_congr env (afterToggle env t menuVisible n)
    (withoutFirstCall env t menuVisible n) "state-sync" true menuVisible (by rw [hm1, hm2])
    (hrest _ (by rw [hm1, hflavor]; exact hne))
  exact ⟨rfl, hcol, hcol2, systrayIconFlavor_mono env menuVisible, hcache, hcongr.1, hcongr.2⟩

theorem mono_toggle_reads_mono_key_witness :
    freshTheme._mono = false ∧
    (afterToggle twoFlavorEnv freshTheme false 2)._iconCache "state-sync,colored" =
      some (themeIcon twoFlavorEnv freshTheme "state-sync" true false).icon ∧
    (themeIcon twoFlavorEnv (afterToggle twoFlavorEnv freshTheme false 2)
      "state-sync" true false).icon =
      (themeIcon twoFlavorEnv (withoutFirstCall twoFlavorEnv freshTheme false 2)
        "state-sync" true false).icon :=
  ⟨rfl, (mono_toggle_reads_mono_key twoFlavorEnv freshTheme false 2 rfl).2.1,
    (mono_toggle_reads_mono_key twoFlavorEnv freshTheme false 2 rfl).2.2.2.2.2.1⟩

/-! ## Calling twice, off the early return -/

/-- The icon a call returns, by path, as a function of the entry `cached`
under the key. -/
theorem themeIcon_icon_cases (env : Env) (t : Theme) (name : String) (sysTray menuVisible : Bool)
    (cached : QIcon)
    (hval : t._iconCache.value
      (themeIconKey name (themeIconFlavor env t._mono sysTray menuVisible)) = cached) :
    (cached.isNull = false ∧
      (themeIcon env t name sysTray menuVisible).icon =
        (if env.isMac then cached.setIsMask (t._mono && sysTray && !menuVisible) else cached)) ∨
    (cached.isNull = true ∧ env.hasThemeIcon name = true ∧
      (themeIcon env t name sysTray menuVisible).icon = QIcon.fromTheme name) ∨
    (cached.isNull = true ∧ env.hasThemeIcon name = false ∧
      (themeIcon env t name sysTray menuVisible).icon =
        (if env.isMac then
          (QIcon.mk none (builtLayers env (themeIconFlavor env t._mono sysTray menuVisible) name)
            cached.isMask).setIsMask (t._mono && sysTray && !menuVisible)
        else
          QIcon.mk none (builtLayers env (themeIconFlavor env t._mono sysTray menuVisible) name)
            cached.isMask)) := by
  subst hval
  by_cases hnull : (t._iconCache.value
      (themeIconKey name (themeIconFlavor env t._mono sysTray menuVisible))).isNull = true
  · by_cases hth : env.hasThemeIcon name = true
    · refine Or.inr (Or.inl ⟨hnull, hth, ?_⟩)
      rw [themeIcon_fromTheme env t name sysTray menuVisible hnull hth]
    · have hth2 : env.hasThemeIcon name = false := by simpa using hth
      refine Or.inr (Or.inr ⟨hnull, hth2, ?_⟩)
      rw [themeIcon_bundled env t name sysTray menuVisible hnull hth2]
      simp only [finish]
      rw [bundledLookup_icon env _ name _ hnull]
  · have hnn : (t._iconCache.value
        (themeIconKey name (themeIconFlavor env t._mono sysTray menuVisible))).isNull = false := by
      simpa using hnull
    refine Or.inl ⟨hnn, ?_⟩
    rw [themeIcon_hit env t name sysTray menuVisible hnn]
    simp only [finish]

/-- Calling `themeIcon` twice in a row with the same arguments returns the
same icon and leaves the same entry under the key, in every case but the one
of the early return under `Q_OS_MAC`: a cache miss for a name the system theme
has, requested as a mono systray icon with no menu visible. -/
theorem themeIcon_twice_same (env : Env) (t : Theme) (name : String) (sysTray menuVisible : Bool)
    (hok : env.isMac = false ∨ env.hasThemeIcon name = false ∨
      (t._mono && sysTray && !menuVisible) = false ∨
      (t._iconCache.value
        (themeIconKey name (themeIconFlavor env t._mono sysTray menuVisible))).isNull = false) :
    (themeIcon env (themeIcon env t name sysTray menuVisible).theme name sysTray menuVisible).icon =
      (themeIcon env t name sysTray menuVisible).icon ∧
    (themeIcon env (themeIcon env t name sysTray menuVisible).theme name sysTray
        menuVisible).theme._iconCache
      (themeIconKey name (themeIconFlavor env t._mono sysTray menuVisible)) =
    (themeIcon env t name sysTray menuVisible).theme._iconCache
      (themeIconKey name (themeIconFlavor env t._mono sysTray menuVisible)) := by
  have hicon : (themeIcon env (themeIcon env t name sysTray menuVisible).theme name sysTray
      menuVisible).icon = (themeIcon env t name sysTray menuVisible).icon := by
    have hfirst := themeIcon_icon_cases env t name sysTray menuVisible _ rfl
    have hsecond := themeIcon_icon_cases env (themeIcon env t name sysTray menuVisible).theme
      name sysTray menuVisible (themeIcon env t name sysTray menuVisible).icon
      (by rw [themeIcon_theme]; simp [IconCache.value, IconCache.set])
    rw [themeIcon_mono] at hsecond
    generalize (themeIcon env (themeIcon env t name sysTray menuVisible).theme name sysTray
      menuVisible).icon = second at hsecond ⊢
    generalize (themeIcon env t name sysTray menuVisible).icon = first at hfirst hsecond ⊢
    generalize (t._iconCache.value
      (themeIconKey name (themeIconFlavor env t._mono sysTray menuVisible))) = cached
      at hfirst hok
    generalize (t._mono && sysTray && !menuVisible) = tag at hfirst hsecond hok
    generalize builtLayers env (themeIconFlavor env t._mono sysTray menuVisible) name = built
      at hfirst hsecond
    obtain ⟨cth, cly, cmask⟩ := cached
    cases hmac : env.isMac <;> simp only [hmac, Bool.false_eq_true, if_true, if_false] at hfirst hsecond <;>
      rcases hfirst with ⟨h1, rfl⟩ | ⟨h1, h2, rfl⟩ | ⟨h1, h2, rfl⟩ <;>
      rcases hsecond with ⟨g1, rfl⟩ | ⟨g1, g2, rfl⟩ | ⟨g1, g2, rfl⟩ <;>
      simp_all [QIcon.isNull, QIcon.setIsMask, QIcon.fromTheme]
  refine ⟨hicon, ?_⟩
  have h2 := themeIcon_cache env (themeIcon env t name sysTray menuVisible).theme name sysTray
    menuVisible
  rw [themeIcon_mono] at h2
  rw [h2, themeIcon_cache env t name sysTray menuVisible, IconCache.set_same, IconCache.set_same,
    hicon]

theorem themeIcon_twice_same_witness :
    (partialEnv.isMac = false ∨ partialEnv.hasThemeIcon "app" = false ∨
      (freshTheme._mono && true && !false) = false ∨
      (freshTheme._iconCache.value
        (themeIconKey "app" (themeIconFlavor partialEnv freshTheme._mono true false))).isNull
          = false) ∧
    (themeIcon partialEnv (themeIcon partialEnv freshTheme "app" true false).theme
      "app" true false).icon = (themeIcon partialEnv freshTheme "app" true false).icon :=
  ⟨Or.inl rfl, (themeIcon_twice_same partialEnv freshTheme "app" true false (Or.inl rfl)).1⟩

end OCC
